import Mathlib

/-!
Verification of the playback/UI synchronization state machine of the
AudioPlayer-Python repository (files `AudioPlayer.py` and `mp3player.py`).

Shallow embedding conventions:
* The mutable session state (playlist, tree rows, `current_index`,
  `index_to_play`, `current_index_playing`, `paused`, `player`,
  `current_song_length`, progress/label widgets, tree selection) is one
  record `PState`.  Python integers are `ℤ`; Python `%` on a positive
  divisor agrees with `Int.emod`, Python `//`/`%` by `60` likewise.
* The external VLC engine and the filesystem/metadata layer are oracles
  (`Eng`, `FSys`): `openOk` says whether `vlc.MediaPlayer(song)` succeeds,
  `newState` is the engine state observed right after `play()` on a fresh
  handle, `dur` is `get_audio_duration`, `mp3Ok` whether `MP3(song)` parses.
  An active handle is `Option Handle`; `player.stop()` moves the handle to
  engine state `Stopped` without dropping the Python reference.
* Row markers: the code stores markers as two-character prefixes
  ("▶ ", "⏸ ", "■ ") of the title cell plus a "playing" tag.  The
  strip-then-add loops of `mark_*_item` / `clear_*_mark` are embedded at the
  marker level (`Marker`, `MarkRow`), which the prefix discipline keeps in
  bijection with the displayed strings.
* Python f-string number displays are rebuilt with `pad2`/`fmtTime`;
  float expressions (`e.x / width`, `int(x)`) are embedded as exact `ℚ`
  arithmetic with `pyInt` for `int()` truncation; on the concrete inputs
  used below float arithmetic is exact, so the embeddings agree.
* The recursive poller/transport calls (`play_song` → `check_song_end` →
  `skip` → `play_song`, …) are given a fuel parameter; running out of fuel
  is the error `PyErr.outOfFuel`.  A raised Python exception is an
  `Except.error` (`ZeroDivisionError` in `skip` on an empty playlist,
  `IndexError` from `playlist[i]`, a failed `vlc.MediaPlayer`/`MP3` call in
  the unguarded `mp3player.py` paths).
* `AudioPlayer.py` and `mp3player.py` share identical code for
  `stop_song`, `skip`'s index arithmetic, the marker helpers,
  `add_song_to_list` and `delete_current_song`; those embeddings are
  shared.  Functions that differ between the variants (`play_song`,
  `check_song_end` and the loops that call them) get an `mp3_` copy.
-/

/-- Engine state of a libVLC media player handle, `vlc.State`. -/
inductive VLCState where
  | NothingSpecial
  | Opening
  | Buffering
  | Playing
  | Paused
  | Stopped
  | Ended
  | Error
deriving DecidableEq

/-- An active `vlc.MediaPlayer` handle: the song it was created on, the
engine state it currently reports, and the position `get_time()` in ms. -/
structure Handle where
  song : String
  state : VLCState
  timeMs : ℤ
deriving DecidableEq

/-- Visual marker prefix of a playlist row's title cell:
none, "▶ ", "⏸ ", or "■ ". -/
inductive Marker where
  | nomark
  | play
  | pause
  | stop
deriving DecidableEq

/-- One Treeview row's marker-relevant state: the title-prefix marker and
whether the row carries the "playing" tag. -/
structure MarkRow where
  mark : Marker
  tag : Bool
deriving DecidableEq

/-- The mutable session state of the player application. -/
structure PState where
  playlist : List String
  rows : List MarkRow
  currentIndex : ℤ
  treeSel : Option ℕ
  indexToPlay : ℤ
  currentIndexPlaying : ℤ
  paused : Bool
  player : Option Handle
  currentSongLength : ℤ
  progressValue : ℤ
  progressMax : ℤ
  labelText : String
  timeText : String
deriving DecidableEq

/-- Oracle for the external VLC and mutagen collaborators. -/
structure Eng where
  openOk : String → Bool
  newState : String → VLCState
  dur : String → ℤ
  mp3Ok : String → Bool

/-- Oracle for the filesystem, used by `add_song_to_list`. -/
structure FSys where
  isFile : String → Bool

/-- A raised Python exception (or fuel exhaustion of the embedding). -/
inductive PyErr where
  | zeroDivision
  | indexError
  | vlcCreate
  | mp3Parse
  | outOfFuel
deriving DecidableEq

/-- Python `int()` applied to an exact rational: truncation toward zero. -/
def pyInt (q : ℚ) : ℤ :=
  if q < 0 then -((-q).floor) else q.floor

/-- Python `f"{n:02}"` zero padding to two digits. -/
def pad2 (n : ℤ) : String :=
  if 0 ≤ n ∧ n < 10 then "0" ++ toString n else toString n

/-- The `"{mm}:{ss} / {MM}:{SS}"` time label written by `update_progress`. -/
def fmtTime (pos total : ℤ) : String :=
  pad2 (pos / 60) ++ ":" ++ pad2 (pos % 60) ++ " / " ++
    pad2 (total / 60) ++ ":" ++ pad2 (total % 60)

/-- `os.path.basename`: the part after the last slash. -/
def baseName (p : String) : String :=
  (p.splitOn "/").getLastD p

/-- Python list subscript `l[i]`: negative indices count from the end,
anything else out of range raises `IndexError`. -/
def pyGet (l : List String) (i : ℤ) : Except PyErr String :=
  if 0 ≤ i ∧ i < (l.length : ℤ) then .ok (l.getD i.toNat "")
  else if i < 0 ∧ 0 ≤ i + (l.length : ℤ) then .ok (l.getD (i + (l.length : ℤ)).toNat "")
  else .error .indexError

/-- Python `list.insert(n, x)`: inserts before position `n`, appending when
`n` is at or beyond the end. -/
def pyInsert {α : Type} : List α → ℕ → α → List α
  | l, 0, x => x :: l
  | [], _ + 1, x => [x]
  | a :: l, n + 1, x => a :: pyInsert l n x

/-- The `for i, item in enumerate(children)` loop body shared by the three
`mark_*_item` helpers: the row at `target` gets marker `m` and the
"playing" tag, every other row is stripped of markers and tags.  `j` is the
index of the first row of the suffix being processed. -/
def setMarkFrom (target : ℤ) (m : Marker) : ℤ → List MarkRow → List MarkRow
  | _, [] => []
  | j, _ :: rs =>
    (if j = target then MarkRow.mk m true else MarkRow.mk Marker.nomark false) ::
      setMarkFrom target m (j + 1) rs

/-- `mark_stopped_item(index)`: row `index` gets "■ " and the tag, all other
rows lose their markers and tags. -/
def mark_stopped_item (index : ℤ) (rows : List MarkRow) : List MarkRow :=
  setMarkFrom index .stop 0 rows

/-- `mark_playing_item(index)`: row `index` gets "▶ " and the tag. -/
def mark_playing_item (index : ℤ) (rows : List MarkRow) : List MarkRow :=
  setMarkFrom index .play 0 rows

/-- `mark_pause_item(index)`: row `index` gets "⏸ " and the tag. -/
def mark_pause_item (index : ℤ) (rows : List MarkRow) : List MarkRow :=
  setMarkFrom index .pause 0 rows

/-- `clear_playing_mark()`: strips "▶ " prefixes and clears every tag. -/
def clear_playing_mark (rows : List MarkRow) : List MarkRow :=
  rows.map fun r => ⟨if r.mark = .play then .nomark else r.mark, false⟩

/-- `clear_stop_mark()`: strips "■ " prefixes and clears every tag. -/
def clear_stop_mark (rows : List MarkRow) : List MarkRow :=
  rows.map fun r => ⟨if r.mark = .stop then .nomark else r.mark, false⟩

/-- `stop_song()` (identical in both source files): clear `paused`, stop the
engine handle if one exists (the Python reference to it is kept), zero the
progress bar, reset the labels, and re-derive markers: the playing mark is
cleared everywhere and, when `current_index_playing` is in range, that row
is marked stopped. -/
def stop_song (s : PState) : PState :=
  let s1 : PState := { s with paused := false }
  let s2 : PState :=
    match s1.player with
    | some h => { s1 with player := some { h with state := VLCState.Stopped } }
    | none => s1
  let s3 : PState := { s2 with progressValue := 0, labelText := "⏹ Stopped", timeText := "" }
  let s4 : PState := { s3 with rows := clear_playing_mark s3.rows }
  if 0 ≤ s4.currentIndexPlaying ∧ s4.currentIndexPlaying < (s4.playlist.length : ℤ) then
    { s4 with rows := mark_stopped_item s4.currentIndexPlaying s4.rows }
  else s4

/-- The early-return guard of `play_song`: `self.player` is truthy, the
engine reports `Playing`, and the playing index equals the requested one. -/
def play_guard (s : PState) : Bool :=
  match s.player with
  | some h => decide (h.state = VLCState.Playing) && decide (s.currentIndexPlaying = s.indexToPlay)
  | none => false

/-- The statement prefix shared by both `play_song` versions after the
early-return guard: `stop_song()`, `clear_stop_mark()`, resolve a negative
`index_to_play` to the selection cache, and bind
`current_index_playing = index_to_play`. -/
def play_bind (s : PState) : PState :=
  let s1 := stop_song s
  let s2 : PState := { s1 with rows := clear_stop_mark s1.rows }
  let s3 : PState :=
    if s2.indexToPlay < 0 then { s2 with indexToPlay := s2.currentIndex } else s2
  { s3 with currentIndexPlaying := s3.indexToPlay }

/-- Closed form of one `wait_for_playing_and_update()` turn: when the engine
is already `Playing` it runs the `update_progress` display refresh,
otherwise it only re-arms itself, leaving the state unchanged. -/
def wait_result (t : PState) : PState :=
  match t.player with
  | some h =>
    if h.state = VLCState.Playing then
      { t with progressValue := pyInt ((h.timeMs : ℚ) / 1000),
               timeText := fmtTime (pyInt ((h.timeMs : ℚ) / 1000)) t.currentSongLength }
    else t
  | none => t

mutual

/-- `play_song()` of `AudioPlayer.py`.  Early-returns when the same index is
already playing; otherwise stops the current handle, clears stop marks,
resolves a negative `index_to_play` to the selection cache, binds
`current_index_playing`, looks the song up (`playlist[i]`, which can raise
`IndexError`), creates and starts a new handle (on failure the `except`
branch sets `player = None` and returns), caches the duration, sets the
label, runs the two poller entry points, and marks the row playing. -/
def play_song : ℕ → Eng → PState → Except PyErr PState
  | 0, _, _ => .error .outOfFuel
  | fuel + 1, eng, s =>
    if play_guard s then .ok s
    else
      let s4 := play_bind s
      match pyGet s4.playlist s4.currentIndexPlaying with
      | .error e => .error e
      | .ok song =>
        if eng.openOk song then
          let s5 : PState :=
            { s4 with player := some ⟨song, eng.newState song, 0⟩,
                      currentSongLength := eng.dur song,
                      progressMax := eng.dur song,
                      labelText := "🎵 Now playing: " ++ baseName song }
          match wait_for_playing_and_update fuel eng s5 with
          | .error e => .error e
          | .ok s6 =>
            match check_song_end fuel eng s6 with
            | .error e => .error e
            | .ok s7 => .ok { s7 with rows := mark_playing_item s7.currentIndexPlaying s7.rows }
        else .ok { s4 with player := none }

/-- `skip(step)`: advance `index_to_play` by `step` modulo the playlist
length (Python raises `ZeroDivisionError` on an empty playlist) and call
`play_song()`. -/
def skip : ℕ → ℤ → Eng → PState → Except PyErr PState
  | 0, _, _, _ => .error .outOfFuel
  | fuel + 1, step, eng, s =>
    if (s.playlist.length : ℤ) = 0 then .error .zeroDivision
    else
      play_song fuel eng
        { s with indexToPlay := (s.indexToPlay + step) % (s.playlist.length : ℤ) }

/-- `update_progress()`: while the engine is `Playing`, refresh the progress
bar and the time label (and re-arm itself, a no-op here); when the engine
is `Ended`, zero the displays and, when not paused and not on the last
index, `skip(1)`. -/
def update_progress : ℕ → Eng → PState → Except PyErr PState
  | 0, _, _ => .error .outOfFuel
  | fuel + 1, eng, s =>
    match s.player with
    | some h =>
      if h.state = VLCState.Playing then
        let pos := pyInt ((h.timeMs : ℚ) / 1000)
        .ok { s with progressValue := pos, timeText := fmtTime pos s.currentSongLength }
      else if h.state = VLCState.Ended then
        let s1 : PState := { s with progressValue := 0, timeText := "" }
        if s1.paused = false ∧ s1.currentIndexPlaying < (s1.playlist.length : ℤ) - 1 then
          skip fuel 1 eng s1
        else .ok s1
      else .ok s
    | none => .ok s

/-- `wait_for_playing_and_update()`: once the engine reports `Playing`, hand
off to `update_progress`; otherwise re-arm (a no-op here). -/
def wait_for_playing_and_update : ℕ → Eng → PState → Except PyErr PState
  | 0, _, _ => .error .outOfFuel
  | fuel + 1, eng, s =>
    match s.player with
    | some h =>
      if h.state = VLCState.Playing then update_progress fuel eng s else .ok s
    | none => .ok s

/-- `check_song_end()` of `AudioPlayer.py`: on `Ended`, zero the displays
and, unless paused, either `skip(1)` (not on the last index) or stop the
player and mark the finished row stopped (last index, no wraparound). -/
def check_song_end : ℕ → Eng → PState → Except PyErr PState
  | 0, _, _ => .error .outOfFuel
  | fuel + 1, eng, s =>
    match s.player with
    | some h =>
      if h.state = VLCState.Ended then
        let s1 : PState := { s with progressValue := 0, timeText := "" }
        if s1.paused = false then
          if s1.currentIndexPlaying < (s1.playlist.length : ℤ) - 1 then
            skip fuel 1 eng s1
          else
            let s2 := stop_song s1
            if 0 ≤ s2.currentIndexPlaying ∧ s2.currentIndexPlaying < (s2.playlist.length : ℤ) then
              .ok { s2 with rows := mark_stopped_item s2.currentIndexPlaying s2.rows }
            else .ok s2
        else .ok s1
      else .ok s
    | none => .ok s

end

/-- `seek_progress(e)`: with a handle present, compute the click fraction
`e.x / width` (a `ZeroDivisionError` when the widget width is zero), set
the engine time to `int(current_song_length * percent) * 1000` ms, and
immediately re-run `update_progress`. -/
def seek_progress (fuel : ℕ) (ex width : ℤ) (eng : Eng) (s : PState) : Except PyErr PState :=
  match s.player with
  | some h =>
    if width = 0 then .error .zeroDivision
    else
      let percent : ℚ := (ex : ℚ) / (width : ℚ)
      let setTime : ℤ := pyInt ((s.currentSongLength : ℚ) * percent) * 1000
      update_progress fuel eng { s with player := some { h with timeMs := setTime } }
  | none => .ok s

/-- `delete_current_song()` (same logic in both files): no-op without a tree
selection or with a stale selection index; otherwise stop and drop the
player when the deleted row is the one playing, remove the playlist entry
and tree row, decrement `current_index_playing` when a player is still
bound and it lies beyond the deleted index, then re-select: the same index
if it still exists, else the new last row, else reset both indices for the
now-empty playlist (Tk drops the selection with the deleted row). -/
def delete_current_song (s : PState) : PState :=
  match s.treeSel with
  | none => s
  | some selIdx =>
    if (s.playlist.length : ℤ) ≤ (selIdx : ℤ) then s
    else
      let idx : ℤ := (selIdx : ℤ)
      let wasPlayingDeleted := s.player.isSome && decide (s.currentIndexPlaying = idx)
      let s1 := if wasPlayingDeleted then { stop_song s with player := none } else s
      let s2 : PState :=
        { s1 with playlist := s1.playlist.eraseIdx selIdx, rows := s1.rows.eraseIdx selIdx }
      let s3 : PState :=
        if s2.player.isSome && decide (idx < s2.currentIndexPlaying) then
          { s2 with currentIndexPlaying := s2.currentIndexPlaying - 1 }
        else s2
      if s3.playlist.isEmpty then
        { s3 with currentIndex := 0, currentIndexPlaying := 0, treeSel := none }
      else
        let newIndex : ℤ := if idx < (s3.playlist.length : ℤ) then idx else (s3.playlist.length : ℤ) - 1
        let s4 : PState := { s3 with currentIndex := newIndex }
        let s5 : PState :=
          if wasPlayingDeleted then { s4 with currentIndexPlaying := newIndex } else s4
        { s5 with treeSel := some newIndex.toNat }

/-- The pop-and-reinsert body of `move_song(old_index, new_index)`: move
the playlist entry and the tree row (the tree is rebuilt from captured
values, which drops all tags), remap `current_index` and
`current_index_playing` by the remove-and-reinsert rule, and select the
destination row. -/
def move_core (oldIndex newIndex : ℤ) (s : PState) : PState :=
  let o := oldIndex.toNat
  let n := newIndex.toNat
  let item := s.playlist.getD o ""
  let pl := pyInsert (s.playlist.eraseIdx o) n item
  let movedRow := s.rows.getD o ⟨Marker.nomark, false⟩
  let rws := (pyInsert (s.rows.eraseIdx o) n movedRow).map fun r => ⟨r.mark, false⟩
  let ci :=
    if s.currentIndex = oldIndex then newIndex
    else if oldIndex < s.currentIndex ∧ s.currentIndex ≤ newIndex then s.currentIndex - 1
    else if newIndex ≤ s.currentIndex ∧ s.currentIndex < oldIndex then s.currentIndex + 1
    else s.currentIndex
  let cip :=
    if s.currentIndexPlaying = oldIndex then newIndex
    else if oldIndex < s.currentIndexPlaying ∧ s.currentIndexPlaying ≤ newIndex then
      s.currentIndexPlaying - 1
    else if newIndex ≤ s.currentIndexPlaying ∧ s.currentIndexPlaying < oldIndex then
      s.currentIndexPlaying + 1
    else s.currentIndexPlaying
  let s1 : PState :=
    { s with playlist := pl, rows := rws, currentIndex := ci, currentIndexPlaying := cip }
  if s1.rows.isEmpty then s1 else { s1 with treeSel := some n }

/-- The trailing marker refresh of `move_song`: re-derive the marker for
`current_index_playing` (playing when a player is bound, stopped
otherwise). -/
def move_marks (s2 : PState) : PState :=
  if s2.player.isSome then
    if 0 ≤ s2.currentIndexPlaying ∧ s2.currentIndexPlaying < (s2.playlist.length : ℤ) then
      { s2 with rows := mark_playing_item s2.currentIndexPlaying s2.rows }
    else { s2 with rows := clear_playing_mark s2.rows }
  else
    let s3 : PState := { s2 with rows := clear_stop_mark s2.rows }
    if 0 ≤ s3.currentIndexPlaying ∧ s3.currentIndexPlaying < (s3.playlist.length : ℤ) then
      { s3 with rows := mark_stopped_item s3.currentIndexPlaying s3.rows }
    else s3

/-- `move_song(old_index, new_index)` of `AudioPlayer.py`: no-op on equal
or out-of-range indices; otherwise run the pop-and-reinsert body and then
the marker refresh. -/
def move_song (oldIndex newIndex : ℤ) (s : PState) : PState :=
  if oldIndex = newIndex then s
  else if ¬ (0 ≤ oldIndex ∧ oldIndex < (s.playlist.length : ℤ)) ∨
          ¬ (0 ≤ newIndex ∧ newIndex < (s.playlist.length : ℤ)) then s
  else move_marks (move_core oldIndex newIndex s)

/-- `clear_songs_list()`: stop first when a player object exists, then empty
the playlist and the tree (the session indices are left untouched). -/
def clear_songs_list (s : PState) : PState :=
  let s1 := if s.player.isSome then stop_song s else s
  { s1 with playlist := [], rows := [], treeSel := none }

/-- `add_song_to_list(path)`: a silent no-op unless `os.path.isfile(path)`;
otherwise resolve title/artist/duration (display-only columns, with
fallbacks that never raise), append the path to the playlist, and insert a
fresh unmarked, untagged tree row at the end. -/
def add_song_to_list (fs : FSys) (path : String) (s : PState) : PState :=
  if fs.isFile path then
    { s with playlist := s.playlist ++ [path], rows := s.rows ++ [⟨Marker.nomark, false⟩] }
  else s

mutual

/-- `play_song()` of `mp3player.py`.  Same flow as the `AudioPlayer.py`
version except that nothing is guarded: a failing `vlc.MediaPlayer(song)`
or a failing `MP3(song)` parse propagates as an exception (the embedding
reports the raised error and drops the half-mutated globals, which no
later claim inspects). -/
def mp3_play_song : ℕ → Eng → PState → Except PyErr PState
  | 0, _, _ => .error .outOfFuel
  | fuel + 1, eng, s =>
    if play_guard s then .ok s
    else
      let s4 := play_bind s
      match pyGet s4.playlist s4.currentIndexPlaying with
      | .error e => .error e
      | .ok song =>
        if eng.openOk song then
          if eng.mp3Ok song then
            let s5 : PState :=
              { s4 with player := some ⟨song, eng.newState song, 0⟩,
                        currentSongLength := eng.dur song,
                        progressMax := eng.dur song,
                        labelText := "🎵 Now playing: " ++ baseName song }
            match mp3_wait_for_playing_and_update fuel eng s5 with
            | .error e => .error e
            | .ok s6 =>
              match mp3_check_song_end fuel eng s6 with
              | .error e => .error e
              | .ok s7 =>
                .ok { s7 with rows := mark_playing_item s7.currentIndexPlaying s7.rows }
          else .error .mp3Parse
        else .error .vlcCreate

/-- `skip(step)` of `mp3player.py` (same arithmetic, calls the mp3 player). -/
def mp3_skip : ℕ → ℤ → Eng → PState → Except PyErr PState
  | 0, _, _, _ => .error .outOfFuel
  | fuel + 1, step, eng, s =>
    if (s.playlist.length : ℤ) = 0 then .error .zeroDivision
    else
      mp3_play_song fuel eng
        { s with indexToPlay := (s.indexToPlay + step) % (s.playlist.length : ℤ) }

/-- `update_progress()` of `mp3player.py` (identical logic). -/
def mp3_update_progress : ℕ → Eng → PState → Except PyErr PState
  | 0, _, _ => .error .outOfFuel
  | fuel + 1, eng, s =>
    match s.player with
    | some h =>
      if h.state = VLCState.Playing then
        let pos := pyInt ((h.timeMs : ℚ) / 1000)
        .ok { s with progressValue := pos, timeText := fmtTime pos s.currentSongLength }
      else if h.state = VLCState.Ended then
        let s1 : PState := { s with progressValue := 0, timeText := "" }
        if s1.paused = false ∧ s1.currentIndexPlaying < (s1.playlist.length : ℤ) - 1 then
          mp3_skip fuel 1 eng s1
        else .ok s1
      else .ok s
    | none => .ok s

/-- `wait_for_playing_and_update()` of `mp3player.py` (identical logic). -/
def mp3_wait_for_playing_and_update : ℕ → Eng → PState → Except PyErr PState
  | 0, _, _ => .error .outOfFuel
  | fuel + 1, eng, s =>
    match s.player with
    | some h =>
      if h.state = VLCState.Playing then mp3_update_progress fuel eng s else .ok s
    | none => .ok s

/-- `check_song_end()` of `mp3player.py`: on `Ended`, zero the displays and,
unless paused, `skip(1)` when not on the last index — but on the last index
of a non-empty playlist it sets `current_index_playing = 0` and calls
`play_song()` again (which rebinds `current_index_playing` to the stale
`index_to_play`) instead of stopping. -/
def mp3_check_song_end : ℕ → Eng → PState → Except PyErr PState
  | 0, _, _ => .error .outOfFuel
  | fuel + 1, eng, s =>
    match s.player with
    | some h =>
      if h.state = VLCState.Ended then
        let s1 : PState := { s with progressValue := 0, timeText := "" }
        if s1.paused = false then
          if s1.currentIndexPlaying < (s1.playlist.length : ℤ) - 1 then
            mp3_skip fuel 1 eng s1
          else if 0 < s1.playlist.length then
            mp3_play_song fuel eng { s1 with currentIndexPlaying := 0 }
          else .ok s1
        else .ok s1
      else .ok s
    | none => .ok s

end

/-- The marker shown on tree row `j` (none when the row does not exist). -/
def rowMark (rows : List MarkRow) (j : ℕ) : Option Marker :=
  (rows[j]?).map MarkRow.mark

/-- The §3 invariant: whenever the playlist is non-empty (so the session's
`current_index_playing` denotes a track rather than the empty state), it
indexes an existing playlist entry. -/
def playingIndexInv (s : PState) : Prop :=
  s.playlist ≠ [] → 0 ≤ s.currentIndexPlaying ∧ s.currentIndexPlaying < (s.playlist.length : ℤ)

instance (s : PState) : Decidable (playingIndexInv s) := by
  unfold playingIndexInv; infer_instance

/-- A benign engine oracle for concrete runs: every open succeeds, a fresh
handle reports `Playing`, every duration is 200 s, every MP3 parses. -/
def engAll : Eng :=
  { openOk := fun _ => true, newState := fun _ => VLCState.Playing,
    dur := fun _ => 200, mp3Ok := fun _ => true }

/-- The empty base session state (fresh application, nothing loaded). -/
def st0 : PState :=
  { playlist := [], rows := [], currentIndex := 0, treeSel := none,
    indexToPlay := 0, currentIndexPlaying := 0, paused := false, player := none,
    currentSongLength := 0, progressValue := 0, progressMax := 0,
    labelText := "", timeText := "" }

/-- An unmarked, untagged tree row. -/
def row0 : MarkRow := ⟨Marker.nomark, false⟩

/-- One-track session whose handle just reported `Ended` at position 0. -/
def stEndedA : PState :=
  { st0 with playlist := ["A.mp3"], rows := [row0],
             player := some ⟨"A.mp3", VLCState.Ended, 0⟩ }

/-- One-track session of `mp3player.py` whose handle reports `Ended` after
123 s of playback, with the row still showing the playing marker. -/
def stMp3A : PState :=
  { st0 with playlist := ["A.mp3"], rows := [⟨Marker.play, true⟩], treeSel := some 0,
             player := some ⟨"A.mp3", VLCState.Ended, 123000⟩, currentSongLength := 123 }

/-- One-track session currently playing its only track at 5000 ms. -/
def stPlay1 : PState :=
  { st0 with playlist := ["a.mp3"], rows := [row0], treeSel := some 0,
             player := some ⟨"a.mp3", VLCState.Playing, 5000⟩, currentSongLength := 200 }

/-- Three-track session with a stale `current_index_playing = 2` and no
bound player (reachable by a failed `vlc.MediaPlayer` open of track 2),
with row 0 selected. -/
def stStale : PState :=
  { st0 with playlist := ["a.mp3", "b.mp3", "c.mp3"], rows := [row0, row0, row0],
             treeSel := some 0, currentIndexPlaying := 2, indexToPlay := 2 }

/-- Three-track session playing track 2, with row 0 selected. -/
def stDel : PState :=
  { st0 with playlist := ["a.mp3", "b.mp3", "c.mp3"], rows := [row0, row0, row0],
             treeSel := some 0, currentIndexPlaying := 2, indexToPlay := 2,
             player := some ⟨"c.mp3", VLCState.Playing, 0⟩ }

/-- One-track session playing a 201-second track from position 0. -/
def stSeek : PState :=
  { st0 with playlist := ["a.mp3"], rows := [row0],
             player := some ⟨"a.mp3", VLCState.Playing, 0⟩, currentSongLength := 201 }

/-- One-track session playing a 200-second track from position 0. -/
def stSeek200 : PState :=
  { st0 with playlist := ["a.mp3"], rows := [row0],
             player := some ⟨"a.mp3", VLCState.Playing, 0⟩, currentSongLength := 200 }

/-- Three-track stopped session with row 2 selected. -/
def stMove : PState :=
  { st0 with playlist := ["a.mp3", "b.mp3", "c.mp3"], rows := [row0, row0, row0],
             treeSel := some 2, currentIndex := 2 }

theorem length_pyInsert {α : Type} : ∀ (l : List α) (n : ℕ) (x : α),
    (pyInsert l n x).length = l.length + 1
  | _, 0, _ => by simp [pyInsert]
  | [], _ + 1, _ => by simp [pyInsert]
  | _ :: l, n + 1, x => by simp [pyInsert, length_pyInsert l n x]

theorem eraseIdx_pyInsert {α : Type} : ∀ (l : List α) (n : ℕ) (x : α), n ≤ l.length →
    (pyInsert l n x).eraseIdx n = l
  | _, 0, _, _ => by simp [pyInsert]
  | [], n + 1, x, h => by simp at h
  | a :: l, n + 1, x, h => by
    simp only [pyInsert, List.eraseIdx_cons_succ, List.cons.injEq, true_and]
    exact eraseIdx_pyInsert l n x (by simpa using h)

theorem getD_pyInsert {α : Type} : ∀ (l : List α) (n : ℕ) (x d : α), n ≤ l.length →
    (pyInsert l n x).getD n d = x
  | _, 0, _, _, _ => by simp [pyInsert]
  | [], n + 1, x, d, h => by simp at h
  | a :: l, n + 1, x, d, h => by
    simpa [pyInsert] using getD_pyInsert l n x d (by simpa using h)

theorem pyInsert_getD_eraseIdx {α : Type} : ∀ (l : List α) (n : ℕ) (d : α), n < l.length →
    pyInsert (l.eraseIdx n) n (l.getD n d) = l
  | a :: l, 0, d, _ => by simp [pyInsert]
  | [], _, d, h => by simp at h
  | a :: l, n + 1, d, h => by
    simpa [pyInsert] using pyInsert_getD_eraseIdx l n d (by simpa using h)

theorem length_setMarkFrom (t : ℤ) (m : Marker) : ∀ (j : ℤ) (rows : List MarkRow),
    (setMarkFrom t m j rows).length = rows.length
  | _, [] => rfl
  | j, _ :: rs => by simp [setMarkFrom, length_setMarkFrom t m (j + 1) rs]

theorem getElem?_setMarkFrom (t : ℤ) (m : Marker) : ∀ (j : ℤ) (rows : List MarkRow) (k : ℕ),
    (setMarkFrom t m j rows)[k]? =
      (rows[k]?).map fun _ => if j + k = t then MarkRow.mk m true else MarkRow.mk .nomark false
  | _, [], k => by simp [setMarkFrom]
  | j, r :: rs, 0 => by simp [setMarkFrom]
  | j, r :: rs, k + 1 => by
    have h := getElem?_setMarkFrom t m (j + 1) rs k
    have hc : j + 1 + (k : ℤ) = j + ((k : ℕ) + 1 : ℕ) := by push_cast; ring
    simp only [setMarkFrom, List.getElem?_cons_succ, h, hc]

theorem length_mark_stopped_item (i : ℤ) (rows : List MarkRow) :
    (mark_stopped_item i rows).length = rows.length :=
  length_setMarkFrom i .stop 0 rows

theorem length_mark_playing_item (i : ℤ) (rows : List MarkRow) :
    (mark_playing_item i rows).length = rows.length :=
  length_setMarkFrom i .play 0 rows

theorem length_clear_playing_mark (rows : List MarkRow) :
    (clear_playing_mark rows).length = rows.length := by
  simp [clear_playing_mark]

theorem length_clear_stop_mark (rows : List MarkRow) :
    (clear_stop_mark rows).length = rows.length := by
  simp [clear_stop_mark]

theorem rowMark_mark_stopped_item (i : ℤ) (rows : List MarkRow) (k : ℕ) (hk : k < rows.length) :
    rowMark (mark_stopped_item i rows) k =
      some (if (k : ℤ) = i then Marker.stop else Marker.nomark) := by
  have h := getElem?_setMarkFrom i .stop 0 rows k
  have hg : rows[k]? = some rows[k] := List.getElem?_eq_getElem hk
  simp only [rowMark, mark_stopped_item, h, hg, Option.map_some, zero_add]
  by_cases hki : (k : ℤ) = i <;> simp [hki]

theorem rowMark_mark_playing_item (i : ℤ) (rows : List MarkRow) (k : ℕ) (hk : k < rows.length) :
    rowMark (mark_playing_item i rows) k =
      some (if (k : ℤ) = i then Marker.play else Marker.nomark) := by
  have h := getElem?_setMarkFrom i .play 0 rows k
  have hg : rows[k]? = some rows[k] := List.getElem?_eq_getElem hk
  simp only [rowMark, mark_playing_item, h, hg, Option.map_some, zero_add]
  by_cases hki : (k : ℤ) = i <;> simp [hki]

theorem stop_song_projections (s : PState) :
    (stop_song s).playlist = s.playlist ∧
    (stop_song s).currentIndex = s.currentIndex ∧
    (stop_song s).treeSel = s.treeSel ∧
    (stop_song s).indexToPlay = s.indexToPlay ∧
    (stop_song s).currentIndexPlaying = s.currentIndexPlaying ∧
    (stop_song s).paused = false ∧
    (stop_song s).progressValue = 0 := by
  cases hp : s.player <;> simp only [stop_song, hp] <;> split <;> simp

theorem stop_song_player (s : PState) :
    (stop_song s).player = s.player.map fun h => { h with state := VLCState.Stopped } := by
  cases hp : s.player <;> simp only [stop_song, hp] <;> split <;> simp

theorem stop_song_rows (s : PState) :
    (stop_song s).rows =
      if 0 ≤ s.currentIndexPlaying ∧ s.currentIndexPlaying < (s.playlist.length : ℤ) then
        mark_stopped_item s.currentIndexPlaying (clear_playing_mark s.rows)
      else clear_playing_mark s.rows := by
  cases hp : s.player <;> simp only [stop_song, hp] <;> split <;> simp_all

theorem stop_song_rows_length (s : PState) : (stop_song s).rows.length = s.rows.length := by
  rw [stop_song_rows]
  split <;> simp [length_mark_stopped_item, length_clear_playing_mark]

theorem wait_run_eq (fuel : ℕ) (eng : Eng) (t : PState) :
    wait_for_playing_and_update (fuel + 2) eng t = .ok (wait_result t) := by
  cases hp : t.player with
  | none => simp [wait_for_playing_and_update, wait_result, hp]
  | some h =>
    by_cases hpl : h.state = VLCState.Playing
    · simp [wait_for_playing_and_update, update_progress, wait_result, hp, hpl]
    · simp [wait_for_playing_and_update, wait_result, hp, hpl]

theorem wait_result_projections (t : PState) :
    (wait_result t).playlist = t.playlist ∧
    (wait_result t).rows = t.rows ∧
    (wait_result t).currentIndex = t.currentIndex ∧
    (wait_result t).treeSel = t.treeSel ∧
    (wait_result t).indexToPlay = t.indexToPlay ∧
    (wait_result t).currentIndexPlaying = t.currentIndexPlaying ∧
    (wait_result t).paused = t.paused ∧
    (wait_result t).player = t.player ∧
    (wait_result t).currentSongLength = t.currentSongLength := by
  cases hp : t.player with
  | none => simp [wait_result, hp]
  | some h => by_cases hpl : h.state = VLCState.Playing <;> simp [wait_result, hp, hpl]

theorem play_bind_projections (s : PState) (h0 : 0 ≤ s.indexToPlay) :
    (play_bind s).playlist = s.playlist ∧
    (play_bind s).indexToPlay = s.indexToPlay ∧
    (play_bind s).currentIndexPlaying = s.indexToPlay ∧
    (play_bind s).currentIndex = s.currentIndex ∧
    (play_bind s).treeSel = s.treeSel ∧
    (play_bind s).paused = false ∧
    (play_bind s).rows = clear_stop_mark (stop_song s).rows := by
  obtain ⟨hpl, hci, hts, hitp, hcip, hpaused, hprog⟩ := stop_song_projections s
  have hneg : ¬ s.indexToPlay < 0 := by omega
  simp [play_bind, hneg, hpl, hci, hts, hitp, hpaused]

theorem play_bind_rows_length (s : PState) :
    (play_bind s).rows.length = s.rows.length := by
  by_cases hneg : (stop_song s).indexToPlay < 0 <;>
    simp [play_bind, hneg, length_clear_stop_mark, stop_song_rows_length]

theorem check_song_end_noop (fuel : ℕ) (eng : Eng) (s : PState) (hf : 0 < fuel)
    (hne : ∀ hdl, s.player = some hdl → hdl.state ≠ VLCState.Ended) :
    check_song_end fuel eng s = .ok s := by
  cases fuel with
  | zero => omega
  | succ n =>
    cases hp : s.player with
    | none => simp [check_song_end, hp]
    | some h => simp [check_song_end, hp, hne h hp]

theorem play_song_run (fuel : ℕ) (eng : Eng) (s : PState)
    (hguard : play_guard s = false)
    (h0 : 0 ≤ s.indexToPlay)
    (h1 : s.indexToPlay < (s.playlist.length : ℤ))
    (hopen : eng.openOk (s.playlist.getD s.indexToPlay.toNat "") = true)
    (hns : eng.newState (s.playlist.getD s.indexToPlay.toNat "") ≠ VLCState.Ended)
    (hrows : s.rows.length = s.playlist.length) :
    ∃ s', play_song (fuel + 3) eng s = .ok s' ∧
      s'.playlist = s.playlist ∧
      s'.currentIndexPlaying = s.indexToPlay ∧
      s'.indexToPlay = s.indexToPlay ∧
      s'.currentIndex = s.currentIndex ∧
      s'.treeSel = s.treeSel ∧
      s'.paused = false ∧
      s'.player = some ⟨s.playlist.getD s.indexToPlay.toNat "",
        eng.newState (s.playlist.getD s.indexToPlay.toNat ""), 0⟩ ∧
      s'.currentSongLength = eng.dur (s.playlist.getD s.indexToPlay.toNat "") ∧
      s'.rows.length = s.rows.length ∧
      rowMark s'.rows s.indexToPlay.toNat = some .play ∧
      (∀ j : ℕ, j < s'.rows.length → j ≠ s.indexToPlay.toNat →
        rowMark s'.rows j = some .nomark) := by
  obtain ⟨b1, b2, b3, b4, b5, b6, b7⟩ := play_bind_projections s h0
  have hget : pyGet (play_bind s).playlist (play_bind s).currentIndexPlaying =
      .ok (s.playlist.getD s.indexToPlay.toNat "") := by
    rw [b1, b3]; simp [pyGet, h0, h1]
  simp only [play_song, hguard, Bool.false_eq_true, if_false, hget, hopen, if_true,
    wait_run_eq]
  obtain ⟨w1, w2, w3, w4, w5, w6, w7, w8, w9⟩ :=
    wait_result_projections
      { play_bind s with
          player := some ⟨s.playlist.getD s.indexToPlay.toNat "",
            eng.newState (s.playlist.getD s.indexToPlay.toNat ""), 0⟩,
          currentSongLength := eng.dur (s.playlist.getD s.indexToPlay.toNat ""),
          progressMax := eng.dur (s.playlist.getD s.indexToPlay.toNat ""),
          labelText := "🎵 Now playing: " ++ baseName (s.playlist.getD s.indexToPlay.toNat "") }
  have hcheck :
      check_song_end (fuel + 2) eng
        (wait_result
          { play_bind s with
              player := some ⟨s.playlist.getD s.indexToPlay.toNat "",
                eng.newState (s.playlist.getD s.indexToPlay.toNat ""), 0⟩,
              currentSongLength := eng.dur (s.playlist.getD s.indexToPlay.toNat ""),
              progressMax := eng.dur (s.playlist.getD s.indexToPlay.toNat ""),
              labelText := "🎵 Now playing: " ++
                baseName (s.playlist.getD s.indexToPlay.toNat "") }) =
      .ok (wait_result
          { play_bind s with
              player := some ⟨s.playlist.getD s.indexToPlay.toNat "",
                eng.newState (s.playlist.getD s.indexToPlay.toNat ""), 0⟩,
              currentSongLength := eng.dur (s.playlist.getD s.indexToPlay.toNat ""),
              progressMax := eng.dur (s.playlist.getD s.indexToPlay.toNat ""),
              labelText := "🎵 Now playing: " ++
                baseName (s.playlist.getD s.indexToPlay.toNat "") }) := by
    refine check_song_end_noop (fuel + 2) eng _ (by omega) ?_
    intro hdl hh
    rw [w8] at hh
    simp only at hh
    cases hh
    exact hns
  rw [hcheck]
  have hrlen : (clear_stop_mark (stop_song s).rows).length = s.rows.length := by
    rw [length_clear_stop_mark, stop_song_rows_length]
  have hklt : s.indexToPlay.toNat < s.rows.length := by omega
  have hk : s.indexToPlay.toNat < (clear_stop_mark (stop_song s).rows).length := by
    rw [hrlen]; exact hklt
  refine ⟨_, rfl, ?_, ?_, ?_, ?_, ?_, ?_, ?_, ?_, ?_, ?_, ?_⟩
  · dsimp only; rw [w1]; dsimp only; rw [b1]
  · dsimp only; rw [w6]; dsimp only; rw [b3]
  · dsimp only; rw [w5]; dsimp only; rw [b2]
  · dsimp only; rw [w3]; dsimp only; rw [b4]
  · dsimp only; rw [w4]; dsimp only; rw [b5]
  · dsimp only; rw [w7]; dsimp only; rw [b6]
  · dsimp only; rw [w8]
  · dsimp only; rw [w9]
  · dsimp only; rw [length_mark_playing_item, w2]; dsimp only; rw [b7, hrlen]
  · dsimp only; rw [w6, w2]; dsimp only
    rw [b3, b7, rowMark_mark_playing_item _ _ _ hk]
    simp [Int.toNat_of_nonneg h0]
  · intro j hj hjne
    dsimp only at hj ⊢
    rw [length_mark_playing_item, w2] at hj
    dsimp only at hj
    rw [b7] at hj
    rw [w6, w2]
    dsimp only
    rw [b3, b7, rowMark_mark_playing_item _ _ _ hj]
    have hne2 : (j : ℤ) ≠ s.indexToPlay := by omega
    simp [hne2]

theorem stop_song_stops_and_marks (t : PState) (i : ℤ)
    (hcip : t.currentIndexPlaying = i) (h0 : 0 ≤ i) (h1 : i < (t.playlist.length : ℤ))
    (hlen : t.rows.length = t.playlist.length) :
    (stop_song t).paused = false ∧
    (stop_song t).progressValue = 0 ∧
    (stop_song t).currentIndexPlaying = i ∧
    rowMark (stop_song t).rows i.toNat = some .stop ∧
    (∀ j : ℕ, j < (stop_song t).rows.length → j ≠ i.toNat →
      rowMark (stop_song t).rows j = some .nomark) := by
  obtain ⟨p1, p2, p3, p4, p5, p6, p7⟩ := stop_song_projections t
  have hcond : 0 ≤ t.currentIndexPlaying ∧ t.currentIndexPlaying < (t.playlist.length : ℤ) := by
    rw [hcip]; exact ⟨h0, h1⟩
  have hr : (stop_song t).rows =
      mark_stopped_item t.currentIndexPlaying (clear_playing_mark t.rows) := by
    rw [stop_song_rows, if_pos hcond]
  have hlen2 : (clear_playing_mark t.rows).length = t.rows.length := length_clear_playing_mark _
  have hklt : i.toNat < (clear_playing_mark t.rows).length := by omega
  refine ⟨p6, p7, by rw [p5, hcip], ?_, ?_⟩
  · rw [hr, hcip, rowMark_mark_stopped_item _ _ _ hklt]
    simp [Int.toNat_of_nonneg h0]
  · intro j hj hjne
    rw [hr, length_mark_stopped_item] at hj
    rw [hr, hcip, rowMark_mark_stopped_item _ _ _ hj]
    have hne2 : (j : ℤ) ≠ i := by omega
    simp [hne2]

/-- C8: `stop_song()` leaves `current_index_playing` (and the playlist, the
selection state, and `index_to_play`) unchanged — it still identifies the
last track acted upon — while resetting the paused flag and the displayed
progress. -/
theorem c8_stop_frame_playing_index (s : PState) :
    (stop_song s).currentIndexPlaying = s.currentIndexPlaying ∧
    (stop_song s).playlist = s.playlist ∧
    (stop_song s).indexToPlay = s.indexToPlay ∧
    (stop_song s).currentIndex = s.currentIndex ∧
    (stop_song s).treeSel = s.treeSel ∧
    (stop_song s).paused = false ∧
    (stop_song s).progressValue = 0 := by
  obtain ⟨h1, h2, h3, h4, h5, h6, h7⟩ := stop_song_projections s
  exact ⟨h5, h1, h4, h2, h3, h6, h7⟩

/-- C10: `add_song_to_list(path)` with a path that is not an existing
regular file is a silent no-op: the whole session state (playlist, rows,
indices, player, displays) is returned unchanged and no error is raised
(the embedding's return type carries no error case on this path). -/
theorem c10_add_song_missing_file_noop (fs : FSys) (path : String) (s : PState)
    (h : fs.isFile path = false) :
    add_song_to_list fs path s = s := by
  simp [add_song_to_list, h]

/-- C10 witness: a concrete missing file on a concrete state. -/
theorem c10_add_song_missing_file_noop_witness :
    (FSys.mk fun _ => false).isFile "/home/user/missing.mp3" = false ∧
    add_song_to_list (FSys.mk fun _ => false) "/home/user/missing.mp3" st0 = st0 :=
  ⟨rfl, c10_add_song_missing_file_noop (FSys.mk fun _ => false) "/home/user/missing.mp3" st0 rfl⟩

/-- C6 is wrong about the code: `skip(±1)` on an empty playlist evaluates
`% len(playlist)` with `len = 0` and raises `ZeroDivisionError` (the
Prev/Next buttons call `skip` unguarded), and `play_song` with the bound
index on an empty playlist raises `IndexError` at `playlist[i]`.  This
theorem evaluates the embedded code at those failing inputs. -/
theorem c6_empty_playlist_skip_and_play_raise :
    skip 5 1 engAll st0 = .error .zeroDivision ∧
    skip 5 (-1) engAll st0 = .error .zeroDivision ∧
    play_song 5 engAll st0 = .error .indexError := by
  exact ⟨rfl, rfl, rfl⟩

/-- C5 (amended): for every valid `index` and prior state, Play(index)
followed immediately by Stop() stops the engine handle — but the Python
reference to the player object is retained (`self.player` is not reset to
`None` by `stop_song`); `paused` is cleared, displayed progress is reset,
and exactly the row at `index` is marked stopped. -/
theorem c5_play_then_stop (fuel : ℕ) (eng : Eng) (s : PState) (i : ℤ)
    (h0 : 0 ≤ i) (h1 : i < (s.playlist.length : ℤ))
    (hrows : s.rows.length = s.playlist.length)
    (hopen : eng.openOk (s.playlist.getD i.toNat "") = true)
    (hns : eng.newState (s.playlist.getD i.toNat "") ≠ VLCState.Ended) :
    ∃ s1, play_song (fuel + 3) eng { s with indexToPlay := i } = .ok s1 ∧
      (∃ h2, (stop_song s1).player = some h2 ∧ h2.state = VLCState.Stopped) ∧
      (stop_song s1).paused = false ∧
      (stop_song s1).progressValue = 0 ∧
      (stop_song s1).currentIndexPlaying = i ∧
      rowMark (stop_song s1).rows i.toNat = some .stop ∧
      (∀ j : ℕ, j < (stop_song s1).rows.length → j ≠ i.toNat →
        rowMark (stop_song s1).rows j = some .nomark) := by
  by_cases hg : play_guard { s with indexToPlay := i } = true
  · refine ⟨{ s with indexToPlay := i }, ?_, ?_, ?_⟩
    · simp [play_song, hg]
    · cases hpp : s.player with
      | none => rw [play_guard] at hg; simp [hpp] at hg
      | some h =>
        refine ⟨{ h with state := VLCState.Stopped }, ?_, rfl⟩
        rw [stop_song_player]
        simp [hpp]
    · have hcip : ({ s with indexToPlay := i } : PState).currentIndexPlaying = i := by
        rw [play_guard] at hg
        cases hpp : s.player with
        | none => simp [hpp] at hg
        | some h => simp [hpp] at hg; exact hg.2
      obtain ⟨m1, m2, m3, m4, m5⟩ :=
        stop_song_stops_and_marks { s with indexToPlay := i } i hcip h0 h1 hrows
      exact ⟨m1, m2, m3, m4, m5⟩
  · rw [Bool.not_eq_true] at hg
    obtain ⟨s1, hps, e1, e2, e3, e4, e5, e6, e7, e8, e9, e10, e11⟩ :=
      play_song_run fuel eng { s with indexToPlay := i } hg h0 h1 hopen hns hrows
    refine ⟨s1, hps, ?_, ?_⟩
    · refine ⟨⟨s.playlist.getD i.toNat "", VLCState.Stopped, 0⟩, ?_, rfl⟩
      rw [stop_song_player, e7]
      rfl
    · have hcip : s1.currentIndexPlaying = i := e2
      have h1' : i < (s1.playlist.length : ℤ) := by rw [e1]; exact h1
      have hlen' : s1.rows.length = s1.playlist.length := by rw [e9, e1, hrows]
      obtain ⟨m1, m2, m3, m4, m5⟩ := stop_song_stops_and_marks s1 i hcip h0 h1' hlen'
      exact ⟨m1, m2, m3, m4, m5⟩

/-- C5 counterexample to the claim as stated: after Play(0) on a one-track
playlist, Stop() leaves `self.player` still bound to a (stopped) player
object — `activeHandle = none` is false. -/
theorem c5_counterexample :
    ((play_song 3 engAll
        { st0 with playlist := ["a.mp3"], rows := [row0], indexToPlay := 0 }).toOption.map
      fun s1 => (stop_song s1).player.isSome) = some true := by
  rfl

/-- C5 witness: the amended behavior at the concrete one-track state. -/
theorem c5_play_then_stop_witness :
    ∃ s1, play_song 3 engAll
        { st0 with playlist := ["a.mp3"], rows := [row0], indexToPlay := 0 } = .ok s1 ∧
      (∃ h2, (stop_song s1).player = some h2 ∧ h2.state = VLCState.Stopped) ∧
      (stop_song s1).paused = false ∧
      (stop_song s1).progressValue = 0 ∧
      (stop_song s1).currentIndexPlaying = 0 ∧
      rowMark (stop_song s1).rows (0 : ℤ).toNat = some .stop ∧
      (∀ j : ℕ, j < (stop_song s1).rows.length → j ≠ (0 : ℤ).toNat →
        rowMark (stop_song s1).rows j = some .nomark) :=
  c5_play_then_stop 0 engAll { st0 with playlist := ["a.mp3"], rows := [row0] } 0
    (by decide) (by decide) (by decide) rfl (by decide)


/-- C1 (amended): in `AudioPlayer.py`, when the engine reports `Ended` and
playback is not paused, `check_song_end` performs `skip(1)` whenever
`current_index_playing` is not the last playlist index, and on the last
index stops the player and marks that row stopped without wrapping to
track 0.  (The `mp3player.py` variant instead restarts playback when the
last track ends — see the counterexample.) -/
theorem c1_end_of_track_advance (fuel : ℕ) (eng : Eng) (s : PState) (h : Handle)
    (hp : s.player = some h) (he : h.state = VLCState.Ended) (hpz : s.paused = false)
    (h0 : 0 ≤ s.currentIndexPlaying) (h1 : s.currentIndexPlaying < (s.playlist.length : ℤ))
    (hrows : s.rows.length = s.playlist.length) :
    (s.currentIndexPlaying < (s.playlist.length : ℤ) - 1 →
      check_song_end (fuel + 1) eng s =
        skip fuel 1 eng { s with progressValue := 0, timeText := "" }) ∧
    (s.currentIndexPlaying = (s.playlist.length : ℤ) - 1 →
      ∃ s', check_song_end (fuel + 1) eng s = .ok s' ∧
        s'.player = some { h with state := VLCState.Stopped } ∧
        s'.paused = false ∧
        s'.currentIndexPlaying = s.currentIndexPlaying ∧
        s'.playlist = s.playlist ∧
        rowMark s'.rows s.currentIndexPlaying.toNat = some .stop ∧
        (∀ j : ℕ, j < s'.rows.length → j ≠ s.currentIndexPlaying.toNat →
          rowMark s'.rows j = some .nomark)) := by
  constructor
  · intro hlt
    simp [check_song_end, hp, he, hpz, hlt]
  · intro hlast
    have hnlt : ¬ (s.currentIndexPlaying < (s.playlist.length : ℤ) - 1) := by omega
    simp only [check_song_end, hp, he, hpz, eq_self_iff_true, if_true, hnlt, if_false]
    obtain ⟨p1, p2, p3, p4, p5, p6, p7⟩ :=
      stop_song_projections { s with paused := false, player := some h, progressValue := 0, timeText := "" }
    have hcond :
        0 ≤ (stop_song { s with paused := false, player := some h, progressValue := 0, timeText := "" }).currentIndexPlaying ∧
        (stop_song { s with paused := false, player := some h, progressValue := 0, timeText := "" }).currentIndexPlaying <
          ((stop_song { s with paused := false, player := some h, progressValue := 0, timeText := "" }).playlist.length : ℤ) := by
      rw [p5, p1]; exact ⟨h0, h1⟩
    rw [if_pos hcond]
    have hklt : s.currentIndexPlaying.toNat <
        (stop_song { s with paused := false, player := some h, progressValue := 0, timeText := "" }).rows.length := by
      rw [stop_song_rows_length]
      show _ < s.rows.length
      omega
    refine ⟨_, rfl, ?_, ?_, ?_, ?_, ?_, ?_⟩
    · dsimp only
      rw [stop_song_player]
      rfl
    · dsimp only
      rw [p6]
    · dsimp only
      rw [p5]
    · dsimp only
      rw [p1]
    · dsimp only
      rw [p5, rowMark_mark_stopped_item _ _ _ hklt]
      simp [Int.toNat_of_nonneg h0]
    · intro j hj hjne
      dsimp only at hj ⊢
      rw [length_mark_stopped_item] at hj
      rw [p5, rowMark_mark_stopped_item _ _ _ hj]
      have hne2 : (j : ℤ) ≠ s.currentIndexPlaying := by omega
      simp [hne2]

set_option maxHeartbeats 2000000 in
/-- C1 counterexample to the claim as stated: in `mp3player.py`, with the
single-track playlist `[A.mp3]` ended (engine `Ended`, not paused, and
`current_index_playing` the last index), `check_song_end` does not stop —
it starts playback again: the resulting state holds a handle in engine
state `Playing` at offset 0 on index 0. -/
theorem c1_counterexample :
    ((mp3_check_song_end 5 engAll stMp3A).toOption.map
      fun s' => (s'.player, s'.currentIndexPlaying)) =
      some (some ⟨"A.mp3", VLCState.Playing, 0⟩, 0) ∧
    VLCState.Playing ≠ VLCState.Stopped := by
  exact ⟨rfl, by decide⟩

/-- C1 witness: the amended claim at the concrete ended one-track state. -/
theorem c1_end_of_track_advance_witness :
    (stEndedA.currentIndexPlaying < (stEndedA.playlist.length : ℤ) - 1 →
      check_song_end (0 + 1) engAll stEndedA =
        skip 0 1 engAll { stEndedA with progressValue := 0, timeText := "" }) ∧
    (stEndedA.currentIndexPlaying = (stEndedA.playlist.length : ℤ) - 1 →
      ∃ s', check_song_end (0 + 1) engAll stEndedA = .ok s' ∧
        s'.player = some { Handle.mk "A.mp3" VLCState.Ended 0 with state := VLCState.Stopped } ∧
        s'.paused = false ∧
        s'.currentIndexPlaying = stEndedA.currentIndexPlaying ∧
        s'.playlist = stEndedA.playlist ∧
        rowMark s'.rows stEndedA.currentIndexPlaying.toNat = some .stop ∧
        (∀ j : ℕ, j < s'.rows.length → j ≠ stEndedA.currentIndexPlaying.toNat →
          rowMark s'.rows j = some .nomark)) :=
  c1_end_of_track_advance 0 engAll stEndedA ⟨"A.mp3", VLCState.Ended, 0⟩
    rfl rfl rfl (by decide) (by decide) (by decide)

/-- C2 (amended): `skip(direction)` on a non-empty playlist advances
`index_to_play` — which equals `current_index_playing` whenever the last
requested index is the playing one, as after any Play — by `direction`
modulo the playlist length and calls `play_song`; `skip(+1)` from the last
index wraps to 0 and `skip(-1)` from index 0 wraps to the last index.  On a
single-track playlist the target is the same track, but when that track is
currently playing the call is a complete no-op (`play_song`'s early-return
guard fires, so playback is NOT restarted); only when it is not playing
does `play_song` rebind a fresh handle at offset 0. -/
theorem c2_skip_wraparound (fuel : ℕ) (eng : Eng) (s : PState) (d : ℤ)
    (hne : s.playlist ≠ [])
    (heq : s.indexToPlay = s.currentIndexPlaying) :
    skip (fuel + 1) d eng s =
      play_song fuel eng
        { s with indexToPlay := (s.currentIndexPlaying + d) % (s.playlist.length : ℤ) } ∧
    (s.currentIndexPlaying = (s.playlist.length : ℤ) - 1 → d = 1 →
      (s.currentIndexPlaying + d) % (s.playlist.length : ℤ) = 0) ∧
    (s.currentIndexPlaying = 0 → d = -1 →
      (s.currentIndexPlaying + d) % (s.playlist.length : ℤ) = (s.playlist.length : ℤ) - 1) ∧
    (∀ h : Handle, s.playlist.length = 1 → s.currentIndexPlaying = 0 → s.player = some h →
      h.state = VLCState.Playing → skip (fuel + 2) d eng s = .ok s) ∧
    (s.playlist.length = 1 → s.currentIndexPlaying = 0 → s.player = none →
      eng.openOk (s.playlist.getD 0 "") = true →
      eng.newState (s.playlist.getD 0 "") ≠ VLCState.Ended →
      s.rows.length = 1 →
      ∃ s', skip (fuel + 4) d eng s = .ok s' ∧
        s'.player = some ⟨s.playlist.getD 0 "", eng.newState (s.playlist.getD 0 ""), 0⟩ ∧
        s'.currentIndexPlaying = 0) := by
  have hlen0 : ¬ ((s.playlist.length : ℤ) = 0) := by
    simpa using hne
  have hlpos : 0 < (s.playlist.length : ℤ) := by omega
  refine ⟨?_, ?_, ?_, ?_, ?_⟩
  · simp [skip, hlen0, heq]
  · intro hlast hd1
    rw [hlast, hd1]
    have hs : (s.playlist.length : ℤ) - 1 + 1 = (s.playlist.length : ℤ) := by ring
    rw [hs, Int.emod_self]
  · intro hcip0 hdm
    rw [hcip0, hdm]
    have hs : (0 : ℤ) + -1 =
        ((s.playlist.length : ℤ) - 1) + (s.playlist.length : ℤ) * (-1) := by ring
    rw [hs, Int.add_mul_emod_self_left]
    exact Int.emod_eq_of_lt (by omega) (by omega)
  · intro h hl1 hcip0 hp hps
    have hitp0 : s.indexToPlay = 0 := heq.trans hcip0
    have hstate : ({ s with indexToPlay := (s.indexToPlay + d) % (s.playlist.length : ℤ) } :
        PState) = s := by
      rw [hitp0, hl1]
      simp only [Nat.cast_one, Int.emod_one]
      rw [← hitp0]
    have hguard : play_guard s = true := by
      rw [play_guard, hp]
      simp [hps, heq]
    simp only [skip, hlen0, if_false, hstate]
    simp [play_song, hguard]
  · intro hl1 hcip0 hpn hopen hns hrows1
    have hitp0 : s.indexToPlay = 0 := heq.trans hcip0
    have hstate : ({ s with indexToPlay := (s.indexToPlay + d) % (s.playlist.length : ℤ) } :
        PState) = s := by
      rw [hitp0, hl1]
      simp only [Nat.cast_one, Int.emod_one]
      rw [← hitp0]
    have hguard : play_guard s = false := by rw [play_guard, hpn]
    obtain ⟨s', hps', e1, e2, e3, e4, e5, e6, e7, e8, e9, e10, e11⟩ :=
      play_song_run fuel eng s hguard (by omega) (by omega)
        (by rw [hitp0]; simpa using hopen)
        (by rw [hitp0]; simpa using hns)
        (by omega)
    refine ⟨s', ?_, ?_, ?_⟩
    · simp only [skip, hlen0, if_false, hstate]
      exact hps'
    · rw [e7, hitp0]
      rfl
    · rw [e2, hitp0]

/-- C2 counterexample to the claim as stated: on a single-track playlist
whose track is currently playing at position 5000 ms, `skip(+1)` is a
complete no-op — the same handle stays at 5000 ms, so playback is not
restarted at offset 0. -/
theorem c2_counterexample :
    skip 5 1 engAll stPlay1 = .ok stPlay1 ∧
    stPlay1.player = some ⟨"a.mp3", VLCState.Playing, 5000⟩ ∧
    (5000 : ℤ) ≠ 0 := by
  exact ⟨rfl, rfl, by decide⟩

/-- C2 witness: the amended claim at the playing one-track state. -/
theorem c2_skip_wraparound_witness :
    (skip (0 + 1) 1 engAll stPlay1 =
      play_song 0 engAll
        { stPlay1 with indexToPlay :=
            (stPlay1.currentIndexPlaying + 1) % (stPlay1.playlist.length : ℤ) }) ∧
    (stPlay1.currentIndexPlaying = (stPlay1.playlist.length : ℤ) - 1 → (1 : ℤ) = 1 →
      (stPlay1.currentIndexPlaying + 1) % (stPlay1.playlist.length : ℤ) = 0) ∧
    (stPlay1.currentIndexPlaying = 0 → (1 : ℤ) = -1 →
      (stPlay1.currentIndexPlaying + 1) % (stPlay1.playlist.length : ℤ) =
        (stPlay1.playlist.length : ℤ) - 1) ∧
    (∀ h : Handle, stPlay1.playlist.length = 1 → stPlay1.currentIndexPlaying = 0 →
      stPlay1.player = some h → h.state = VLCState.Playing →
      skip (0 + 2) 1 engAll stPlay1 = .ok stPlay1) ∧
    (stPlay1.playlist.length = 1 → stPlay1.currentIndexPlaying = 0 → stPlay1.player = none →
      engAll.openOk (stPlay1.playlist.getD 0 "") = true →
      engAll.newState (stPlay1.playlist.getD 0 "") ≠ VLCState.Ended →
      stPlay1.rows.length = 1 →
      ∃ s', skip (0 + 4) 1 engAll stPlay1 = .ok s' ∧
        s'.player = some ⟨stPlay1.playlist.getD 0 "",
          engAll.newState (stPlay1.playlist.getD 0 ""), 0⟩ ∧
        s'.currentIndexPlaying = 0) :=
  c2_skip_wraparound 0 engAll stPlay1 1 (by decide) rfl

/-- C3 (amended): `delete_current_song` with the selection on a valid index
`k` and a bound player handle: when `k` is strictly below
`current_index_playing`, the playing index is reduced by exactly one and
playback is untouched (same handle, same paused flag); when `k` equals
`current_index_playing`, playback is stopped and the handle released
(`player = None`), and the playing index is remapped to the slot now
occupying that position, or to the new last index if none remains, or to
the empty-state value 0 if the playlist becomes empty.  Without a bound
handle the decrement is skipped — see the counterexample. -/
theorem c3_delete_remap (s : PState) (k : ℕ) (h : Handle)
    (hsel : s.treeSel = some k) (hk : (k : ℤ) < (s.playlist.length : ℤ))
    (hp : s.player = some h)
    (hcip : s.currentIndexPlaying < (s.playlist.length : ℤ)) :
    ((k : ℤ) < s.currentIndexPlaying →
      (delete_current_song s).currentIndexPlaying = s.currentIndexPlaying - 1 ∧
      (delete_current_song s).player = s.player ∧
      (delete_current_song s).paused = s.paused) ∧
    ((k : ℤ) = s.currentIndexPlaying →
      (delete_current_song s).player = none ∧
      (delete_current_song s).currentIndexPlaying =
        (if s.playlist.length ≤ 1 then 0
         else if (k : ℤ) < (s.playlist.length : ℤ) - 1 then (k : ℤ)
         else (s.playlist.length : ℤ) - 2)) := by
  have hguard : ¬ ((s.playlist.length : ℤ) ≤ (k : ℤ)) := by omega
  have hlen : (s.playlist.eraseIdx k).length = s.playlist.length - 1 := by
    rw [List.length_eraseIdx]; simp; omega
  constructor
  · intro hlt
    have hcipne : ¬ (s.currentIndexPlaying = (k : ℤ)) := by omega
    have hempty2 : ¬ (s.playlist.eraseIdx k = []) := by
      intro he; rw [he] at hlen; simp at hlen; omega
    have hknew : (k : ℤ) < ((s.playlist.eraseIdx k).length : ℤ) := by
      rw [hlen]; omega
    simp only [delete_current_song, hsel, hguard, if_false, hp, hcipne]
    simp [hp, hlt, hempty2, hknew]
  · intro heq
    have heq2 : s.currentIndexPlaying = (k : ℤ) := heq.symm
    obtain ⟨p1, p2, p3, p4, p5, p6, p7⟩ := stop_song_projections s
    by_cases hone : s.playlist.length ≤ 1
    · have h1len : s.playlist.length = 1 := by omega
      have hkz : k = 0 := by omega
      have hempty3 : ((stop_song s).playlist.eraseIdx k) = [] := by
        subst hkz
        cases hpl : s.playlist with
        | nil => rw [hpl] at h1len; simp at h1len
        | cons a t =>
          have ht : t = [] := by
            rw [hpl] at h1len; simpa using h1len
          rw [p1, hpl, ht]
          rfl
      simp only [delete_current_song, hsel, hguard, if_false, hp, heq2]
      simp [hempty3, hone]
    · have hne1 : ¬ (s.playlist = []) := by
        intro he; rw [he] at hone; simp at hone
      have hlen1 : ¬ (s.playlist.length = 1) := by omega
      simp only [delete_current_song, hsel, hguard, if_false, hp, heq2]
      by_cases hsplit : (k : ℤ) < (s.playlist.length : ℤ) - 1
      · have hknat : k < (s.playlist.eraseIdx k).length := by rw [hlen]; omega
        simp [p1, hne1, hlen1, hknat, hone, hsplit]
      · have hknat : ¬ (k < (s.playlist.eraseIdx k).length) := by rw [hlen]; omega
        have hcast : ((s.playlist.eraseIdx k).length : ℤ) - 1 =
            (s.playlist.length : ℤ) - 2 := by
          rw [hlen]; omega
        simp [p1, hne1, hlen1, hknat, hone, hsplit, hcast]

/-- C3 counterexample to the claim as stated: deleting index 0 while
`current_index_playing = 2` but with no bound player (the state after a
failed `vlc.MediaPlayer` open of track 2) leaves `current_index_playing`
at 2 — it is not reduced by one, because the decrement in
`delete_current_song` is guarded by `self.player is not None`. -/
theorem c3_counterexample :
    stStale.currentIndexPlaying = 2 ∧
    (delete_current_song stStale).currentIndexPlaying = 2 ∧
    (2 : ℤ) ≠ 2 - 1 := by
  exact ⟨rfl, rfl, by decide⟩

/-- C3 witness: the amended claim on a three-track playlist playing track 2
with row 0 selected and a bound handle. -/
theorem c3_delete_remap_witness :
    (((0 : ℕ) : ℤ) < stDel.currentIndexPlaying →
      (delete_current_song stDel).currentIndexPlaying = stDel.currentIndexPlaying - 1 ∧
      (delete_current_song stDel).player = stDel.player ∧
      (delete_current_song stDel).paused = stDel.paused) ∧
    (((0 : ℕ) : ℤ) = stDel.currentIndexPlaying →
      (delete_current_song stDel).player = none ∧
      (delete_current_song stDel).currentIndexPlaying =
        (if stDel.playlist.length ≤ 1 then 0
         else if ((0 : ℕ) : ℤ) < (stDel.playlist.length : ℤ) - 1 then ((0 : ℕ) : ℤ)
         else (stDel.playlist.length : ℤ) - 2)) :=
  c3_delete_remap stDel 0 ⟨"c.mp3", VLCState.Playing, 0⟩ rfl (by decide) rfl (by decide)

set_option maxHeartbeats 1000000 in
theorem move_marks_fields (t : PState) :
    (move_marks t).playlist = t.playlist ∧
    (move_marks t).currentIndexPlaying = t.currentIndexPlaying ∧
    (move_marks t).currentIndex = t.currentIndex ∧
    (move_marks t).treeSel = t.treeSel ∧
    (move_marks t).player = t.player ∧
    (move_marks t).indexToPlay = t.indexToPlay ∧
    (move_marks t).paused = t.paused := by
  unfold move_marks
  dsimp only
  split_ifs <;> exact ⟨rfl, rfl, rfl, rfl, rfl, rfl, rfl⟩

set_option maxHeartbeats 1000000 in
theorem move_core_fields (a b : ℤ) (s : PState) :
    (move_core a b s).playlist =
      pyInsert (s.playlist.eraseIdx a.toNat) b.toNat (s.playlist.getD a.toNat "") ∧
    (move_core a b s).currentIndexPlaying =
      (if s.currentIndexPlaying = a then b
       else if a < s.currentIndexPlaying ∧ s.currentIndexPlaying ≤ b then
         s.currentIndexPlaying - 1
       else if b ≤ s.currentIndexPlaying ∧ s.currentIndexPlaying < a then
         s.currentIndexPlaying + 1
       else s.currentIndexPlaying) ∧
    (move_core a b s).currentIndex =
      (if s.currentIndex = a then b
       else if a < s.currentIndex ∧ s.currentIndex ≤ b then s.currentIndex - 1
       else if b ≤ s.currentIndex ∧ s.currentIndex < a then s.currentIndex + 1
       else s.currentIndex) ∧
    (move_core a b s).player = s.player ∧
    (move_core a b s).indexToPlay = s.indexToPlay ∧
    (move_core a b s).paused = s.paused := by
  unfold move_core
  refine ⟨?_, ?_, ?_, ?_, ?_, ?_⟩ <;> (dsimp only; split <;> rfl)


/-- C4 (amended): the bound `0 ≤ current_index_playing < len(playlist)`
(whenever the playlist is non-empty) is preserved by `move_song`
unconditionally, by `delete_current_song` whenever a player handle is
bound, by `add_song_to_list` whenever the empty-playlist state carries the
conventional `current_index_playing = 0`, and by `clear_songs_list`
vacuously.  Without the bound-handle proviso `delete_current_song` can
break the invariant (see the counterexample). -/
theorem c4_playing_index_invariant (s : PState) (a b : ℤ) (fs : FSys) (p : String)
    (hInv : playingIndexInv s) :
    playingIndexInv (move_song a b s) ∧
    (s.player.isSome = true → playingIndexInv (delete_current_song s)) ∧
    ((s.playlist = [] → s.currentIndexPlaying = 0) →
      playingIndexInv (add_song_to_list fs p s)) ∧
    playingIndexInv (clear_songs_list s) := by
  refine ⟨?_, ?_, ?_, ?_⟩
  · by_cases hab : a = b
    · unfold move_song
      rw [if_pos hab]
      exact hInv
    · by_cases hg : ¬ (0 ≤ a ∧ a < (s.playlist.length : ℤ)) ∨
          ¬ (0 ≤ b ∧ b < (s.playlist.length : ℤ))
      · unfold move_song
        rw [if_neg hab, if_pos hg]
        exact hInv
      · unfold move_song
        rw [if_neg hab, if_neg hg]
        push_neg at hg
        obtain ⟨⟨ha0, ha1⟩, hb0, hb1⟩ := hg
        have hlen1 : 0 < s.playlist.length := by omega
        have hsne : s.playlist ≠ [] := by
          intro he; rw [he] at hlen1; simp at hlen1
        obtain ⟨g1, g2⟩ := hInv hsne
        have hel : (s.playlist.eraseIdx a.toNat).length = s.playlist.length - 1 := by
          rw [List.length_eraseIdx]
          have : a.toNat < s.playlist.length := by omega
          simp [this]
        obtain ⟨mm1, mm2, mm3, mm4, mm5, mm6, mm7⟩ := move_marks_fields (move_core a b s)
        obtain ⟨mc1, mc2, mc3, mc4, mc5, mc6⟩ := move_core_fields a b s
        have hlenq : (((move_marks (move_core a b s)).playlist.length : ℕ) : ℤ) =
            (s.playlist.length : ℤ) := by
          rw [mm1, mc1, length_pyInsert, hel]
          omega
        unfold playingIndexInv
        intro hne2
        rw [mm2, mc2, hlenq]
        constructor
        · split_ifs <;> omega
        · split_ifs <;> omega
  · intro hps
    obtain ⟨h, hp⟩ := Option.isSome_iff_exists.mp hps
    cases hsel : s.treeSel with
    | none =>
      unfold delete_current_song
      rw [hsel]
      exact hInv
    | some k =>
      by_cases hg : (s.playlist.length : ℤ) ≤ (k : ℤ)
      · simp only [delete_current_song, hsel]
        rw [if_pos hg]
        exact hInv
      · have hk : (k : ℤ) < (s.playlist.length : ℤ) := by omega
        have hlen1 : 0 < s.playlist.length := by omega
        have hsne : s.playlist ≠ [] := by
          intro he; rw [he] at hlen1; simp at hlen1
        obtain ⟨g1, g2⟩ := hInv hsne
        have hlen : (s.playlist.eraseIdx k).length = s.playlist.length - 1 := by
          rw [List.length_eraseIdx]; simp; omega
        obtain ⟨p1, p2, p3, p4, p5, p6, p7⟩ := stop_song_projections s
        unfold playingIndexInv
        by_cases hck : s.currentIndexPlaying = (k : ℤ)
        · by_cases hone : s.playlist.length ≤ 1
          · have h1len : s.playlist.length = 1 := by omega
            have hkz : k = 0 := by omega
            have hempty3 : ((stop_song s).playlist.eraseIdx k) = [] := by
              subst hkz
              cases hpl : s.playlist with
              | nil => rw [hpl] at h1len; simp at h1len
              | cons c t =>
                have ht : t = [] := by
                  rw [hpl] at h1len; simpa using h1len
                rw [p1, hpl, ht]
                rfl
            simp only [delete_current_song, hsel, hg, if_false, hp, hck]
            simp [hempty3, hone]
          · have hne1 : ¬ (s.playlist = []) := hsne
            have hlen1e : ¬ (s.playlist.length = 1) := by omega
            simp only [delete_current_song, hsel, hg, if_false, hp, hck]
            by_cases hsplit : (k : ℤ) < (s.playlist.length : ℤ) - 1
            · have hsplitn : k < s.playlist.length - 1 := by omega
              simp [p1, p5, hne1, hlen1e, hone, hsplitn, hlen]
            · have hsplitn : ¬ (k < s.playlist.length - 1) := by omega
              simp [p1, p5, hne1, hlen1e, hone, hsplitn, hlen]
              omega
        · by_cases hlt : (k : ℤ) < s.currentIndexPlaying
          · have hne1 : ¬ (s.playlist.eraseIdx k = []) := by
              intro he; rw [he] at hlen; simp at hlen; omega
            have hknew : (k : ℤ) < ((s.playlist.eraseIdx k).length : ℤ) := by
              rw [hlen]; omega
            simp only [delete_current_song, hsel, hg, if_false, hp, hck]
            simp [hp, hlt, hne1, hknew, hlen]
            omega
          · have hne1 : ¬ (s.playlist.eraseIdx k = []) := by
              intro he; rw [he] at hlen; simp at hlen; omega
            simp only [delete_current_song, hsel, hg, if_false, hp, hck]
            simp [hp, hlt, hne1, hlen]
            omega
  · intro hz
    by_cases hf : fs.isFile p = true
    · unfold add_song_to_list
      rw [if_pos hf]
      unfold playingIndexInv
      intro hne2
      simp only [List.length_append, List.length_cons, List.length_nil]
      by_cases hemp : s.playlist = []
      · have hc0 := hz hemp
        constructor <;> omega
      · obtain ⟨g1, g2⟩ := hInv hemp
        constructor
        · exact g1
        · push_cast
          omega
    · unfold add_song_to_list
      rw [if_neg (by simpa using hf)]
      exact hInv
  · unfold playingIndexInv clear_songs_list
    intro hne2
    simp at hne2

/-- C4 counterexample: `stStale` (three tracks, `current_index_playing = 2`,
no bound player, row 0 selected) satisfies the invariant, yet
`delete_current_song` leaves `current_index_playing = 2` on a two-track
playlist because both the stop branch and the `idx < current_index_playing`
decrement are gated on `self.player` being non-None. -/
theorem c4_counterexample :
    playingIndexInv stStale ∧ ¬ playingIndexInv (delete_current_song stStale) := by
  constructor
  · decide
  · decide

theorem c4_playing_index_invariant_witness :
    playingIndexInv stDel ∧ playingIndexInv (delete_current_song stDel) :=
  ⟨by decide,
    (c4_playing_index_invariant stDel 0 1 ⟨fun _ => true⟩ "x" (by decide)).2.1 (by decide)⟩

theorem pyInt_intCast (k : ℤ) : pyInt (k : ℚ) = k := by
  have hf : ∀ q : ℚ, q.floor = ⌊q⌋ := fun _ => rfl
  unfold pyInt
  split
  · rw [hf, ← Int.cast_neg, Int.floor_intCast]; ring
  · rw [hf, Int.floor_intCast]

theorem pyInt_mul_div_exact (cs ex width k : ℤ) (hw : ¬ (width = 0))
    (hk : cs * ex = width * k) :
    ((pyInt ((cs : ℚ) * ((ex : ℚ) / (width : ℚ))) * 1000 : ℤ) : ℚ) =
      (cs : ℚ) * ((ex : ℚ) / (width : ℚ)) * 1000 := by
  have hwq : (width : ℚ) ≠ 0 := Int.cast_ne_zero.mpr hw
  have hk2 : cs * ex = k * width := by rw [hk]; ring
  have hq : (cs : ℚ) * ((ex : ℚ) / (width : ℚ)) = (k : ℚ) := by
    rw [← mul_div_assoc, div_eq_iff hwq]
    exact_mod_cast hk2
  rw [hq, pyInt_intCast]
  push_cast
  ring

/-- C7 (amended): with a bound handle in any state other than `Ended`
(playing or paused alike) and a non-zero widget width, `seek_progress`
succeeds and sets the engine position to
`int(current_song_length * (event.x / width)) * 1000` milliseconds — the
second count is truncated toward zero before scaling to ms, and the input
fraction is NOT clamped to `[0, 1]`.  The position equals the exact value
`fraction x cached duration` precisely when `width` divides
`current_song_length * event.x` (as in the 200 s, fraction `1/2` scenario,
which yields exactly 100000 ms — see the witness); a click fraction whose
product is not a whole number of seconds is floored, and a click reported
beyond the widget seeks past the track end (see the counterexample).  An
`Ended` handle is excluded because the immediate `update_progress` re-poll
then runs the auto-advance branch, which can rebind a fresh handle at 0 ms
and clobber the position that was just set. -/
theorem c7_seek_fraction (fuel : ℕ) (ex width : ℤ) (eng : Eng) (s : PState)
    (h : Handle) (hp : s.player = some h) (hw : ¬ (width = 0))
    (hne : ¬ (h.state = VLCState.Ended)) :
    ∃ s', seek_progress (fuel + 1) ex width eng s = .ok s' ∧
      ∃ h', s'.player = some h' ∧ h'.song = h.song ∧
        h'.timeMs = pyInt ((s.currentSongLength : ℚ) * ((ex : ℚ) / (width : ℚ))) * 1000 ∧
        (width ∣ s.currentSongLength * ex →
          (h'.timeMs : ℚ) = (s.currentSongLength : ℚ) * ((ex : ℚ) / (width : ℚ)) * 1000) := by
  unfold seek_progress
  rw [hp]
  dsimp only
  rw [if_neg hw]
  unfold update_progress
  dsimp only
  by_cases hplay : h.state = VLCState.Playing
  · rw [hplay]
    simp only [if_pos rfl]
    refine ⟨_, rfl, ⟨h.song, VLCState.Playing,
      pyInt ((s.currentSongLength : ℚ) * ((ex : ℚ) / (width : ℚ))) * 1000⟩, rfl, rfl, rfl, ?_⟩
    intro hd
    obtain ⟨k, hk⟩ := hd
    exact pyInt_mul_div_exact _ _ _ k hw hk
  · rw [if_neg hplay, if_neg hne]
    refine ⟨_, rfl, ⟨h.song, h.state,
      pyInt ((s.currentSongLength : ℚ) * ((ex : ℚ) / (width : ℚ))) * 1000⟩, rfl, rfl, rfl, ?_⟩
    intro hd
    obtain ⟨k, hk⟩ := hd
    exact pyInt_mul_div_exact _ _ _ k hw hk

/-- C7 counterexample: on a 201-second track, a click at `x = 3` on a
2-pixel-wide bar (fraction 1.5) seeks to 301000 ms — neither the clamped
value 201000 ms (the claim requires clamping the fraction to `[0,1]`) nor
the exact product `201 * 1.5 * 1000 = 301500` ms (the fractional half
second is floored away). -/
theorem c7_counterexample :
    (seek_progress 2 3 2 engAll stSeek).toOption.map
        (fun t => t.player.map Handle.timeMs) = some (some 301000) ∧
    (301000 : ℤ) ≠ 201000 ∧ (301000 : ℚ) ≠ (201 : ℚ) * ((3 : ℚ) / (2 : ℚ)) * 1000 := by
  refine ⟨?_, by decide, by norm_num⟩
  norm_num [seek_progress, update_progress, stSeek, st0, engAll, pyInt, Rat.floor_def',
    fmtTime, pad2]
  exact ⟨_, rfl, _, rfl, rfl⟩

theorem c7_seek_fraction_witness :
    stSeek200.player = some ⟨"a.mp3", VLCState.Playing, 0⟩ ∧
    (∃ s', seek_progress 2 1 2 engAll stSeek200 = .ok s' ∧
      ∃ h', s'.player = some h' ∧ h'.song = Handle.song ⟨"a.mp3", VLCState.Playing, 0⟩ ∧
        h'.timeMs = pyInt ((stSeek200.currentSongLength : ℚ) * ((1 : ℚ) / (2 : ℚ))) * 1000 ∧
        ((2 : ℤ) ∣ stSeek200.currentSongLength * 1 →
          (h'.timeMs : ℚ) =
            (stSeek200.currentSongLength : ℚ) * ((1 : ℚ) / (2 : ℚ)) * 1000)) ∧
    pyInt ((stSeek200.currentSongLength : ℚ) * ((1 : ℚ) / (2 : ℚ))) * 1000 = 100000 :=
  ⟨rfl,
   c7_seek_fraction 1 1 2 engAll stSeek200 ⟨"a.mp3", VLCState.Playing, 0⟩ rfl (by decide)
     (by decide),
   by norm_num [stSeek200, st0, pyInt, Rat.floor_def']⟩

theorem move_song_run (a b : ℤ) (t : PState) (hab : ¬ (a = b))
    (hg : ¬ (¬ (0 ≤ a ∧ a < (t.playlist.length : ℤ)) ∨
             ¬ (0 ≤ b ∧ b < (t.playlist.length : ℤ)))) :
    move_song a b t = move_marks (move_core a b t) := by
  unfold move_song
  rw [if_neg hab, if_neg hg]

/-- C9 (amended): for every pair of in-range indices, `move_song(a, b)`
followed by `move_song(b, a)` restores the playlist order,
`current_index` and `current_index_playing` — the remove-and-reinsert
remapping rule composes to the identity on the stored index bindings.
The Treeview row selection, however, is NOT restored: each move forces
the selection onto the destination row, so after the round trip row `a`
is selected regardless of the original selection (see the
counterexample); the round trip also drops row tags and pause markers
because the tree is rebuilt from captured title/marker text only. -/
theorem c9_move_round_trip (a b : ℤ) (s : PState)
    (ha0 : 0 ≤ a) (ha1 : a < (s.playlist.length : ℤ))
    (hb0 : 0 ≤ b) (hb1 : b < (s.playlist.length : ℤ)) :
    (move_song b a (move_song a b s)).playlist = s.playlist ∧
    (move_song b a (move_song a b s)).currentIndex = s.currentIndex ∧
    (move_song b a (move_song a b s)).currentIndexPlaying = s.currentIndexPlaying := by
  by_cases hab : a = b
  · subst hab
    unfold move_song
    simp
  · have hguard1 : ¬ (¬ (0 ≤ a ∧ a < (s.playlist.length : ℤ)) ∨
        ¬ (0 ≤ b ∧ b < (s.playlist.length : ℤ))) := by
      push_neg; exact ⟨⟨ha0, ha1⟩, hb0, hb1⟩
    have hs1e : move_song a b s = move_marks (move_core a b s) :=
      move_song_run a b s hab hguard1
    obtain ⟨mm1, mm2, mm3, mm4, mm5, mm6, mm7⟩ := move_marks_fields (move_core a b s)
    obtain ⟨mc1, mc2, mc3, mc4, mc5, mc6⟩ := move_core_fields a b s
    have hel : (s.playlist.eraseIdx a.toNat).length = s.playlist.length - 1 := by
      rw [List.length_eraseIdx]
      have : a.toNat < s.playlist.length := by omega
      simp [this]
    have hp1 : (move_song a b s).playlist =
        pyInsert (s.playlist.eraseIdx a.toNat) b.toNat (s.playlist.getD a.toNat "") := by
      rw [hs1e, mm1, mc1]
    have hlen1 : ((move_song a b s).playlist.length : ℤ) = (s.playlist.length : ℤ) := by
      rw [hp1, length_pyInsert, hel]; omega
    have hba : ¬ (b = a) := fun hh => hab hh.symm
    have hguard2 : ¬ (¬ (0 ≤ b ∧ b < ((move_song a b s).playlist.length : ℤ)) ∨
        ¬ (0 ≤ a ∧ a < ((move_song a b s).playlist.length : ℤ))) := by
      rw [hlen1]; push_neg; exact ⟨⟨hb0, hb1⟩, ha0, ha1⟩
    have hs2e : move_song b a (move_song a b s) =
        move_marks (move_core b a (move_song a b s)) :=
      move_song_run b a (move_song a b s) hba hguard2
    obtain ⟨nm1, nm2, nm3, nm4, nm5, nm6, nm7⟩ :=
      move_marks_fields (move_core b a (move_song a b s))
    obtain ⟨nc1, nc2, nc3, nc4, nc5, nc6⟩ := move_core_fields b a (move_song a b s)
    have hbe : b.toNat ≤ (s.playlist.eraseIdx a.toNat).length := by
      rw [hel]; omega
    have hci1 : (move_song a b s).currentIndex =
        (if s.currentIndex = a then b
         else if a < s.currentIndex ∧ s.currentIndex ≤ b then s.currentIndex - 1
         else if b ≤ s.currentIndex ∧ s.currentIndex < a then s.currentIndex + 1
         else s.currentIndex) := by
      rw [hs1e, mm3, mc3]
    have hcp1 : (move_song a b s).currentIndexPlaying =
        (if s.currentIndexPlaying = a then b
         else if a < s.currentIndexPlaying ∧ s.currentIndexPlaying ≤ b then
           s.currentIndexPlaying - 1
         else if b ≤ s.currentIndexPlaying ∧ s.currentIndexPlaying < a then
           s.currentIndexPlaying + 1
         else s.currentIndexPlaying) := by
      rw [hs1e, mm2, mc2]
    refine ⟨?_, ?_, ?_⟩
    · rw [hs2e, nm1, nc1, hp1]
      rw [eraseIdx_pyInsert _ _ _ hbe, getD_pyInsert _ _ _ _ hbe]
      exact pyInsert_getD_eraseIdx _ _ _ (by omega)
    · rw [hs2e, nm3, nc3, hci1]
      split_ifs <;> omega
    · rw [hs2e, nm2, nc2, hcp1]
      split_ifs <;> omega

/-- C9 counterexample: on `stMove` (three tracks, row 2 selected) the
round trip `move_song(0, 1)` then `move_song(1, 0)` leaves row 0 selected
in the Treeview, not the original row 2: each move ends with
`select_row(new_index)` on the destination. -/
theorem c9_counterexample :
    (move_song 1 0 (move_song 0 1 stMove)).treeSel = some 0 ∧
    stMove.treeSel = some 2 ∧ (some 0 : Option ℕ) ≠ some 2 := by
  refine ⟨by decide, rfl, by decide⟩

theorem c9_move_round_trip_witness :
    (move_song 1 0 (move_song 0 1 stMove)).playlist = stMove.playlist ∧
    (move_song 1 0 (move_song 0 1 stMove)).currentIndex = stMove.currentIndex ∧
    (move_song 1 0 (move_song 0 1 stMove)).currentIndexPlaying = stMove.currentIndexPlaying :=
  c9_move_round_trip 0 1 stMove (by decide) (by decide) (by decide) (by decide)
